import Mathlib

/-!
Verification of the Longan Labs I2C CAN driver (src/lib.rs) against its
natural-language specification.

The driver is embedded shallowly: the asynchronous I2C transport is modelled
by an explicit environment, a list of responses that each transport call
consumes from the front, together with a trace of the operations the driver
has issued.  Machine integers (u8, u32) are modelled as Nat with explicit
reductions modulo 2^8 and 2^32 where the Rust semantics wraps.
-/

set_option maxRecDepth 4000

/-- Transport operations issued by the driver on the I2C bus, as recorded in
the trace: a write of the given bytes to the given address, or a read of the
given number of bytes from the given address. -/
inductive I2COp where
  | write (addr : Nat) (bytes : List Nat)
  | read (addr : Nat) (len : Nat)
deriving DecidableEq, Repr

/-- Response of the environment (bus plus device) to one transport call.
For a read, `ok bytes` carries the bytes the device returns; for a write the
payload of `ok` is ignored.  `err e` makes the call fail with transport error
code `e`. -/
inductive TResp where
  | ok (bytes : List Nat)
  | err (e : Nat)
deriving DecidableEq, Repr

/-- Driver state together with the remaining environment and the trace of
transport operations issued so far.  `address` is the driver's stored I2C
address (field `address: u8` of `LonganLabsI2CCan`). -/
structure RunSt where
  address : Nat
  env : List TResp
  trace : List I2COp
deriving DecidableEq, Repr

/-- Error type of the driver, mirroring `enum Error` in the source; the
transport error is carried as its numeric code. -/
inductive DriverError where
  | interfaceError (e : Nat)
  | invalidChecksum
  | dataTooLarge
deriving DecidableEq, Repr

/-- Consume the next response from the environment; an exhausted environment
defaults to a successful empty response. -/
def nextResp (env : List TResp) : TResp × List TResp :=
  match env with
  | [] => (.ok [], [])
  | r :: rs => (r, rs)

/-- Truncate or zero-pad the device's response bytes to the read buffer
length `len`, reducing each byte modulo 256 (the device hands over bytes). -/
def padTo (len : Nat) (bytes : List Nat) : List Nat :=
  (bytes.map (· % 256) ++ List.replicate len 0).take len

/-- Model of `self.interface.write(self.address, bytes)`: records the write
in the trace, consumes one environment response, and fails iff that response
is an error. -/
def i2cWrite (bytes : List Nat) (s : RunSt) : RunSt × Except Nat Unit :=
  let (r, rest) := nextResp s.env
  let s' : RunSt :=
    { s with env := rest, trace := s.trace ++ [I2COp.write s.address bytes] }
  match r with
  | .ok _ => (s', .ok ())
  | .err e => (s', .error e)

/-- Model of `self.interface.read(self.address, buf)` for a buffer of length
`len`: records the read in the trace, consumes one environment response, and
on success returns the device bytes padded or truncated to `len`. -/
def i2cRead (len : Nat) (s : RunSt) : RunSt × Except Nat (List Nat) :=
  let (r, rest) := nextResp s.env
  let s' : RunSt :=
    { s with env := rest, trace := s.trace ++ [I2COp.read s.address len] }
  match r with
  | .ok bytes => (s', .ok (padTo len bytes))
  | .err e => (s', .error e)

/-- Model of `make_checksum`: a 32-bit wrapping sum of the bytes; if the sum
exceeds 0xFF it is replaced by its bitwise complement plus one (in 32-bit
wrapping arithmetic); the low 8 bits are returned. -/
def make_checksum (data : List Nat) : Nat :=
  let sum : Nat := data.foldl (fun s b => (s + b) % 2 ^ 32) 0
  let sum : Nat := if sum > 0xFF then (2 ^ 32 - 1 - sum + 1) % 2 ^ 32 else sum
  sum % 256

/-- Model of `struct CanFrame`: the payload `data` models the
`ArrayVec<u8, 8>`; its length bound and byte bounds appear as hypotheses
where theorems need them. -/
structure CanFrame where
  id : Nat
  extended_id : Bool
  remote_transmission_request : Bool
  data : List Nat
deriving DecidableEq, Repr

/-- Model of `enum BaudRate`, the closed set of supported CAN bit rates. -/
inductive BaudRate where
  | K5 | K10 | K20 | K25 | K31_2 | K33 | K40 | K50 | K80
  | K83_3 | K95 | K100 | K125 | K200 | K250 | K500 | K666 | K1000
deriving DecidableEq, Repr

/-- Wire code of each baud rate: the `repr(u8)` discriminant in the source,
produced by `value as u8`. -/
def BaudRate.code : BaudRate → Nat
  | .K5 => 1 | .K10 => 2 | .K20 => 3 | .K25 => 4 | .K31_2 => 5
  | .K33 => 6 | .K40 => 7 | .K50 => 8 | .K80 => 9 | .K83_3 => 10
  | .K95 => 11 | .K100 => 12 | .K125 => 13 | .K200 => 14 | .K250 => 15
  | .K500 => 16 | .K666 => 17 | .K1000 => 18

/-- Model of `u32::to_be_bytes`: the four big-endian bytes of `id`. -/
def idBEBytes (id : Nat) : List Nat :=
  [id / 2 ^ 24 % 256, id / 2 ^ 16 % 256, id / 2 ^ 8 % 256, id % 256]

/-- Model of `u32::from_be_bytes` on a list of bytes. -/
def u32_from_be (l : List Nat) : Nat :=
  l.foldl (fun a b => a * 256 + b) 0

/-- Model of `set_addres`: writes `[0x01, value]` at the current address and,
only if the write succeeded, stores `value` as the new address. -/
def set_addres (value : Nat) (s : RunSt) : RunSt × Except DriverError Unit :=
  match i2cWrite [0x01, value] s with
  | (s', .error e) => (s', .error (.interfaceError e))
  | (s', .ok ()) => ({ s' with address := value }, .ok ())

/-- Model of `available_frames`: writes `[0x02]`, reads one byte into a
zero-initialized one-byte buffer, and returns that byte. -/
def available_frames (s : RunSt) : RunSt × Except DriverError Nat :=
  match i2cWrite [0x02] s with
  | (s', .error e) => (s', .error (.interfaceError e))
  | (s', .ok ()) =>
    match i2cRead 1 s' with
    | (s'', .error e) => (s'', .error (.interfaceError e))
    | (s'', .ok bytes) => (s'', .ok (bytes.headD 0))

/-- Model of `set_can_baud_rate`: writes `[0x03, value as u8]`. -/
def set_can_baud_rate (value : BaudRate) (s : RunSt) :
    RunSt × Except DriverError Unit :=
  match i2cWrite [0x03, value.code] s with
  | (s', .error e) => (s', .error (.interfaceError e))
  | (s', .ok ()) => (s', .ok ())

/-- Fifteen-byte payload region of the outbound buffer (bytes 1..16): id in
big-endian, the two flags, the data length, the data, and zero padding up to
8 data bytes, exactly as `send_frame` fills its zero-initialized buffer. -/
def sendPayload (frame : CanFrame) : List Nat :=
  idBEBytes frame.id ++
    [frame.extended_id.toNat, frame.remote_transmission_request.toNat,
      frame.data.length] ++
    frame.data ++ List.replicate (8 - frame.data.length) 0

/-- Seventeen-byte outbound buffer of `send_frame`: command byte 0x30, the
payload region, and the checksum of the payload region. -/
def sendBuffer (frame : CanFrame) : List Nat :=
  0x30 :: (sendPayload frame ++ [make_checksum (sendPayload frame)])

/-- Model of `send_frame`: builds the 17-byte buffer and writes it in one
transaction. -/
def send_frame (frame : CanFrame) (s : RunSt) : RunSt × Except DriverError Unit :=
  match i2cWrite (sendBuffer frame) s with
  | (s', .error e) => (s', .error (.interfaceError e))
  | (s', .ok ()) => (s', .ok ())

/-- Decoding of the 16-byte response buffer inside `try_receive_frame`
(source lines 81..103): checksum verification over bytes 0..15 against byte
15, then field extraction, then the length check. -/
def decode_frame (buffer : List Nat) : Except DriverError (Option CanFrame) :=
  if buffer.getD 15 0 ≠ make_checksum (buffer.take 15) then
    .error .invalidChecksum
  else if buffer.getD 6 0 > 8 then
    .error .dataTooLarge
  else
    .ok (some
      { id := u32_from_be (buffer.take 4),
        extended_id := decide (0 < buffer.getD 4 0),
        remote_transmission_request := decide (0 < buffer.getD 5 0),
        data := (buffer.drop 7).take (buffer.getD 6 0) })

/-- Model of `try_receive_frame`: query availability; if zero frames are
stored return none; otherwise write `[0x40]`, read 16 bytes and decode. -/
def try_receive_frame (s : RunSt) : RunSt × Except DriverError (Option CanFrame) :=
  match available_frames s with
  | (s', .error e) => (s', .error e)
  | (s', .ok n) =>
    if n = 0 then (s', .ok none)
    else
      match i2cWrite [0x40] s' with
      | (s'', .error e) => (s'', .error (.interfaceError e))
      | (s'', .ok ()) =>
        match i2cRead 16 s'' with
        | (s3, .error e) => (s3, .error (.interfaceError e))
        | (s3, .ok buffer) => (s3, decode_frame buffer)

/-- Model of `receive_frame`: poll `try_receive_frame` until a frame or an
error arrives.  The Rust loop may not terminate, so it is modelled with
fuel; `none` in the result means the fuel ran out while still polling. -/
def receive_frame : Nat → RunSt → RunSt × Option (Except DriverError CanFrame)
  | 0, s => (s, none)
  | fuel + 1, s =>
    match try_receive_frame s with
    | (s', .error e) => (s', some (.error e))
    | (s', .ok (some frame)) => (s', some (.ok frame))
    | (s', .ok none) => receive_frame fuel s'

/-- Modelled from the spec: the inbound frame layout produced by the bridge,
id as 4 big-endian bytes, extended-id byte, RTR byte, dlc byte, data
zero-padded to 8 bytes, then the checksum of the preceding 15 bytes. -/
def encode_inbound (f : CanFrame) : List Nat :=
  let payload : List Nat :=
    idBEBytes f.id ++
      [f.extended_id.toNat, f.remote_transmission_request.toNat, f.data.length] ++
      f.data ++ List.replicate (8 - f.data.length) 0
  payload ++ [make_checksum payload]

/-- State and result of the (k+1)-th invocation of `try_receive_frame` when
invocations are chained from state `s`. -/
def pollResults : RunSt → Nat → RunSt × Except DriverError (Option CanFrame)
  | s, 0 => try_receive_frame s
  | s, k + 1 => pollResults (try_receive_frame s).1 k

/-- Embeds the result type of `receive_frame` into the result type of
`try_receive_frame`: a frame becomes an available frame, errors are kept. -/
def liftRes : Except DriverError CanFrame → Except DriverError (Option CanFrame)
  | .ok f => .ok (some f)
  | .error e => .error e
example : make_checksum [1, 2, 3] = 6 := by decide
example : make_checksum [200, 100] = 256 - 44 := by decide

/-- Folding wrapping addition modulo `m` over a list computes the plain sum
modulo `m`. -/
theorem foldl_add_mod (m : Nat) (l : List Nat) (a : Nat) :
    l.foldl (fun s b => (s + b) % m) (a % m) = (a + l.sum) % m := by
  induction l generalizing a with
  | nil => simp
  | cons b t ih =>
    simp only [List.foldl_cons, List.sum_cons]
    rw [Nat.mod_add_mod, ih (a + b), Nat.add_assoc]

/-- C1: make_checksum returns the low 8 bits of the 32-bit sum when that sum
is at most 0xFF, and the low 8 bits of the 32-bit two's-complement negation
of the full sum when the sum exceeds 0xFF; the negation branch is taken
exactly when the sum exceeds 0xFF. -/
theorem make_checksum_spec (b : List Nat) :
    make_checksum b =
      if b.sum % 2 ^ 32 > 0xFF then
        ((2 ^ 32 - 1 - b.sum % 2 ^ 32 + 1) % 2 ^ 32) % 256
      else
        (b.sum % 2 ^ 32) % 256 := by
  have h : b.foldl (fun s x => (s + x) % 2 ^ 32) 0 = b.sum % 2 ^ 32 := by
    have := foldl_add_mod (2 ^ 32) b 0
    simpa using this
  unfold make_checksum
  rw [h]
  exact apply_ite (fun x => x % 256) _ _ _


/-- Characterization of available_frames on a two-response environment: one
acknowledged write of 0x02, one read whose single byte is returned. -/
theorem available_frames_eq (a : Nat) (tr : List I2COp) (w b : List Nat)
    (rest : List TResp) :
    available_frames ⟨a, TResp.ok w :: TResp.ok b :: rest, tr⟩ =
      (⟨a, rest, tr ++ [I2COp.write a [0x02], I2COp.read a 1]⟩,
        .ok (b.headD 0 % 256)) := by
  cases b <;>
    simp [available_frames, i2cWrite, i2cRead, nextResp, padTo, List.append_assoc]

/-- Result address of a transport write equals the input address. -/
theorem i2cWrite_fst_address (bytes : List Nat) (s : RunSt) :
    ((i2cWrite bytes s).1).address = s.address := by
  rcases s with ⟨a, env, tr⟩
  cases env with
  | nil => rfl
  | cons r rs => cases r <;> rfl

/-- Result address of a transport read equals the input address. -/
theorem i2cRead_fst_address (len : Nat) (s : RunSt) :
    ((i2cRead len s).1).address = s.address := by
  rcases s with ⟨a, env, tr⟩
  cases env with
  | nil => rfl
  | cons r rs => cases r <;> rfl

/-- Address component of the result pair of a transport write. -/
theorem i2cWrite_pair_address (bytes : List Nat) (s s' : RunSt)
    (r : Except Nat Unit) (h : i2cWrite bytes s = (s', r)) :
    s'.address = s.address := by
  have h0 := i2cWrite_fst_address bytes s
  rw [h] at h0
  exact h0

/-- Address component of the result pair of a transport read. -/
theorem i2cRead_pair_address (len : Nat) (s s' : RunSt)
    (r : Except Nat (List Nat)) (h : i2cRead len s = (s', r)) :
    s'.address = s.address := by
  have h0 := i2cRead_fst_address len s
  rw [h] at h0
  exact h0

/-- Result address of available_frames equals the input address. -/
theorem available_frames_fst_address (s : RunSt) :
    ((available_frames s).1).address = s.address := by
  unfold available_frames
  split
  · rename_i s1 e hw
    exact i2cWrite_pair_address _ _ _ _ hw
  · rename_i s1 hw
    split
    · rename_i s2 e hr
      exact (i2cRead_pair_address _ _ _ _ hr).trans
        (i2cWrite_pair_address _ _ _ _ hw)
    · rename_i s2 bytes hr
      exact (i2cRead_pair_address _ _ _ _ hr).trans
        (i2cWrite_pair_address _ _ _ _ hw)

/-- Address component of the result pair of available_frames. -/
theorem available_frames_pair_address (s s' : RunSt)
    (r : Except DriverError Nat) (h : available_frames s = (s', r)) :
    s'.address = s.address := by
  have h0 := available_frames_fst_address s
  rw [h] at h0
  exact h0

/-- Result address of try_receive_frame equals the input address. -/
theorem try_receive_frame_fst_address (s : RunSt) :
    ((try_receive_frame s).1).address = s.address := by
  unfold try_receive_frame
  split
  · rename_i s1 e hav
    exact available_frames_pair_address _ _ _ hav
  · rename_i s1 n hav
    have ha1 : s1.address = s.address := available_frames_pair_address _ _ _ hav
    split
    · exact ha1
    · split
      · rename_i s2 e hw
        exact (i2cWrite_pair_address _ _ _ _ hw).trans ha1
      · rename_i s2 hw
        have ha2 : s2.address = s.address :=
          (i2cWrite_pair_address _ _ _ _ hw).trans ha1
        split
        · rename_i s3 e hr
          exact (i2cRead_pair_address _ _ _ _ hr).trans ha2
        · rename_i s3 buffer hr
          exact (i2cRead_pair_address _ _ _ _ hr).trans ha2

/-- Address component of the result pair of try_receive_frame. -/
theorem try_receive_frame_pair_address (s s' : RunSt)
    (r : Except DriverError (Option CanFrame)) (h : try_receive_frame s = (s', r)) :
    s'.address = s.address := by
  have h0 := try_receive_frame_fst_address s
  rw [h] at h0
  exact h0

/-- Result address of receive_frame equals the input address, for any fuel. -/
theorem receive_frame_fst_address (fuel : Nat) (s : RunSt) :
    ((receive_frame fuel s).1).address = s.address := by
  induction fuel generalizing s with
  | zero => rfl
  | succ k ih =>
    unfold receive_frame
    split
    · rename_i s1 e ht
      exact try_receive_frame_pair_address _ _ _ ht
    · rename_i s1 f ht
      exact try_receive_frame_pair_address _ _ _ ht
    · rename_i s1 ht
      exact (ih s1).trans (try_receive_frame_pair_address _ _ _ ht)

/-- Result address of send_frame equals the input address. -/
theorem send_frame_fst_address (f : CanFrame) (s : RunSt) :
    ((send_frame f s).1).address = s.address := by
  unfold send_frame
  split
  · rename_i s1 e hw
    exact i2cWrite_pair_address _ _ _ _ hw
  · rename_i s1 hw
    exact i2cWrite_pair_address _ _ _ _ hw

/-- Result address of set_can_baud_rate equals the input address. -/
theorem set_can_baud_rate_fst_address (r : BaudRate) (s : RunSt) :
    ((set_can_baud_rate r s).1).address = s.address := by
  unfold set_can_baud_rate
  split
  · rename_i s1 e hw
    exact i2cWrite_pair_address _ _ _ _ hw
  · rename_i s1 hw
    exact i2cWrite_pair_address _ _ _ _ hw

/-- C10: every public operation other than set_addres — available_frames,
set_can_baud_rate, send_frame, try_receive_frame, and receive_frame — leaves
the driver's stored address unchanged, on success and on every error path. -/
theorem address_unchanged_spec (s : RunSt) :
    ((available_frames s).1.address = s.address) ∧
    (∀ r : BaudRate, (set_can_baud_rate r s).1.address = s.address) ∧
    (∀ f : CanFrame, (send_frame f s).1.address = s.address) ∧
    ((try_receive_frame s).1.address = s.address) ∧
    (∀ fuel : Nat, (receive_frame fuel s).1.address = s.address) :=
  ⟨available_frames_fst_address s, fun r => set_can_baud_rate_fst_address r s,
    fun f => send_frame_fst_address f s, try_receive_frame_fst_address s,
    fun fuel => receive_frame_fst_address fuel s⟩

/-- C5: set_addres writes the command bytes 0x01 and the new address to the
bridge at the current stored address; on write success the stored address
becomes the new value, and on write failure the stored address is unchanged
and the transport error propagates. -/
theorem set_addres_spec (value : Nat) (s : RunSt) :
    (set_addres value s).1.trace
        = s.trace ++ [I2COp.write s.address [0x01, value]] ∧
    (∀ w rest, s.env = TResp.ok w :: rest →
      set_addres value s =
        (⟨value, rest, s.trace ++ [I2COp.write s.address [0x01, value]]⟩,
          .ok ())) ∧
    (∀ e rest, s.env = TResp.err e :: rest →
      set_addres value s =
        (⟨s.address, rest, s.trace ++ [I2COp.write s.address [0x01, value]]⟩,
          .error (.interfaceError e))) := by
  rcases s with ⟨a, env, tr⟩
  refine ⟨?_, ?_, ?_⟩
  · cases env with
    | nil => rfl
    | cons r rs => cases r <;> rfl
  · intro w rest h
    obtain rfl : env = TResp.ok w :: rest := h
    rfl
  · intro e rest h
    obtain rfl : env = TResp.err e :: rest := h
    rfl

/-- C5 witness: on a successful write the address becomes 0x30 and the write
went to the old address 0x25; on a failed write the address stays 0x25. -/
theorem set_addres_spec_witness :
    set_addres 0x30 ⟨0x25, [TResp.ok []], []⟩ =
      (⟨0x30, [], [I2COp.write 0x25 [0x01, 0x30]]⟩, .ok ()) ∧
    set_addres 0x30 ⟨0x25, [TResp.err 7], []⟩ =
      (⟨0x25, [], [I2COp.write 0x25 [0x01, 0x30]]⟩,
        .error (.interfaceError 7)) :=
  ⟨(set_addres_spec 0x30 ⟨0x25, [TResp.ok []], []⟩).2.1 [] [] rfl,
    (set_addres_spec 0x30 ⟨0x25, [TResp.err 7], []⟩).2.2 7 [] rfl⟩

/-- C8: set_can_baud_rate performs exactly one transport write, of the two
bytes 0x03 and the rate's wire code, at the current address, issues no read,
and leaves the address unchanged; the wire codes lie in 1..=18 and K500's
code is 0x10. -/
theorem set_can_baud_rate_spec (r : BaudRate) (s : RunSt) :
    (set_can_baud_rate r s).1.trace
        = s.trace ++ [I2COp.write s.address [0x03, r.code]] ∧
    (set_can_baud_rate r s).1.address = s.address ∧
    (1 ≤ r.code ∧ r.code ≤ 18) ∧ BaudRate.code .K500 = 0x10 := by
  refine ⟨?_, set_can_baud_rate_fst_address r s,
    by cases r <;> exact ⟨by decide, by decide⟩, rfl⟩
  rcases s with ⟨a, env, tr⟩
  cases env with
  | nil => rfl
  | cons rr rs => cases rr <;> rfl

/-- C9 (amended): available_frames writes the single byte 0x02 at the current
address, then reads exactly one byte, and returns the device's response byte
reduced modulo 256; the returned count lies in 0..=16 exactly when that byte
does, but is not clamped by the driver. -/
theorem available_frames_byte_spec (s : RunSt) (w b : List Nat)
    (rest : List TResp) (h : s.env = TResp.ok w :: TResp.ok b :: rest) :
    available_frames s =
      (⟨s.address, rest,
        s.trace ++ [I2COp.write s.address [0x02], I2COp.read s.address 1]⟩,
        .ok (b.headD 0 % 256)) := by
  rcases s with ⟨a, env, tr⟩
  obtain rfl : env = TResp.ok w :: TResp.ok b :: rest := h
  exact available_frames_eq a tr w b rest

/-- C9 witness: with a device response byte of 5 the driver writes 0x02,
reads one byte and returns the count 5. -/
theorem available_frames_byte_spec_witness :
    available_frames ⟨0x25, [TResp.ok [], TResp.ok [5]], []⟩ =
      (⟨0x25, [], [I2COp.write 0x25 [0x02], I2COp.read 0x25 1]⟩,
        .ok (5 % 256)) :=
  available_frames_byte_spec ⟨0x25, [TResp.ok [], TResp.ok [5]], []⟩ [] [5] []
    rfl

/-- C9 counterexample: with a device response byte of 200 the returned count
is 200, which is not in the range 0..=16, refuting the claimed range for
arbitrary transport-response bytes. -/
theorem available_frames_range_counterexample :
    (available_frames ⟨0x25, [TResp.ok [], TResp.ok [200]], []⟩).2 = .ok 200 ∧
      ¬(200 ≤ 16) :=
  ⟨rfl, by decide⟩

/-- C6: when the availability query returns zero, try_receive_frame returns
no frame after exactly the 0x02 write and the one-byte read; the read-frame
command 0x40 and the 16-byte read are not issued. -/
theorem try_receive_frame_none_spec (s : RunSt) (w b : List Nat)
    (rest : List TResp) (henv : s.env = TResp.ok w :: TResp.ok b :: rest)
    (hzero : b.headD 0 % 256 = 0) :
    try_receive_frame s =
      (⟨s.address, rest,
        s.trace ++ [I2COp.write s.address [0x02], I2COp.read s.address 1]⟩,
        .ok none) := by
  rcases s with ⟨a, env, tr⟩
  obtain rfl : env = TResp.ok w :: TResp.ok b :: rest := henv
  unfold try_receive_frame
  rw [available_frames_eq a tr w b rest, hzero]
  rfl

/-- C6 witness: with an availability response byte of 0 the driver issues
only the 0x02 write and the one-byte read and reports no frame. -/
theorem try_receive_frame_none_spec_witness :
    try_receive_frame ⟨0x25, [TResp.ok [], TResp.ok [0]], []⟩ =
      (⟨0x25, [], [I2COp.write 0x25 [0x02], I2COp.read 0x25 1]⟩, .ok none) :=
  try_receive_frame_none_spec ⟨0x25, [TResp.ok [], TResp.ok [0]], []⟩ [] [0] []
    rfl rfl

/-- Trace component of the result pair of a transport write. -/
theorem i2cWrite_pair_trace (bytes : List Nat) (s s' : RunSt)
    (r : Except Nat Unit) (h : i2cWrite bytes s = (s', r)) :
    s'.trace = s.trace ++ [I2COp.write s.address bytes] := by
  have h0 : ((i2cWrite bytes s).1).trace
      = s.trace ++ [I2COp.write s.address bytes] := by
    rcases s with ⟨a, env, tr⟩
    cases env with
    | nil => rfl
    | cons rr rs => cases rr <;> rfl
  rw [h] at h0
  exact h0

/-- Trace of send_frame: exactly one write of the 17-byte buffer. -/
theorem send_frame_trace (f : CanFrame) (s : RunSt) :
    (send_frame f s).1.trace = s.trace ++ [I2COp.write s.address (sendBuffer f)] := by
  unfold send_frame
  split
  · rename_i s1 e hw
    exact i2cWrite_pair_trace _ _ _ _ hw
  · rename_i s1 hw
    exact i2cWrite_pair_trace _ _ _ _ hw

/-- Length of the outbound payload region is 15 for data of length at most
8 bytes. -/
theorem sendPayload_length (f : CanFrame) (h : f.data.length ≤ 8) :
    (sendPayload f).length = 15 := by
  simp [sendPayload, idBEBytes]
  omega

/-- Cons normal form of the outbound buffer. -/
theorem sendBuffer_cons (f : CanFrame) :
    sendBuffer f =
      0x30 :: f.id / 2 ^ 24 % 256 :: f.id / 2 ^ 16 % 256 ::
      f.id / 2 ^ 8 % 256 :: f.id % 256 :: f.extended_id.toNat ::
      f.remote_transmission_request.toNat :: f.data.length ::
      (f.data ++ (List.replicate (8 - f.data.length) 0 ++
        [make_checksum (sendPayload f)])) := by
  simp [sendBuffer, sendPayload, idBEBytes]

/-- getD of a replicated zero list is zero at every index. -/
theorem getD_replicate_zero (r n : Nat) :
    (List.replicate r (0 : Nat)).getD n 0 = 0 := by
  induction r generalizing n with
  | zero => simp
  | succ k ih => cases n <;> simp [List.replicate_succ, ih]

/-- Bytes 1..16 of the outbound buffer form the payload region. -/
theorem sendBuffer_drop_take (f : CanFrame) (h : f.data.length ≤ 8) :
    ((sendBuffer f).drop 1).take 15 = sendPayload f := by
  have hlen := sendPayload_length f h
  unfold sendBuffer
  rw [List.drop_one, List.tail_cons, ← hlen, List.take_left]

/-- C2: send_frame performs exactly one transport write of exactly 17 bytes
at the current address; byte 0 is 0x30, bytes 1..5 are the id in 4-byte
big-endian, byte 5 is the extended-id flag, byte 6 the RTR flag, byte 7 the
data length, bytes 8..(8+len) the data, the remaining bytes up to 16 zero,
and byte 16 the checksum of bytes 1..16 (the full zero-padded region). -/
theorem send_frame_spec (f : CanFrame) (s : RunSt) (h : f.data.length ≤ 8) :
    ∃ buffer : List Nat,
      (send_frame f s).1.trace = s.trace ++ [I2COp.write s.address buffer] ∧
      buffer.length = 17 ∧
      buffer.getD 0 0 = 0x30 ∧
      buffer.getD 1 0 = f.id / 2 ^ 24 % 256 ∧
      buffer.getD 2 0 = f.id / 2 ^ 16 % 256 ∧
      buffer.getD 3 0 = f.id / 2 ^ 8 % 256 ∧
      buffer.getD 4 0 = f.id % 256 ∧
      buffer.getD 5 0 = f.extended_id.toNat ∧
      buffer.getD 6 0 = f.remote_transmission_request.toNat ∧
      buffer.getD 7 0 = f.data.length ∧
      (∀ i, i < f.data.length → buffer.getD (8 + i) 0 = f.data.getD i 0) ∧
      (∀ i, f.data.length ≤ i → i < 8 → buffer.getD (8 + i) 0 = 0) ∧
      buffer.getD 16 0 = make_checksum ((buffer.drop 1).take 15) := by
  refine ⟨sendBuffer f, send_frame_trace f s, ?_, ?_, ?_, ?_, ?_, ?_, ?_, ?_,
    ?_, ?_, ?_, ?_⟩
  · rw [sendBuffer_cons]
    simp
    omega
  · rw [sendBuffer_cons]; rfl
  · rw [sendBuffer_cons]; rfl
  · rw [sendBuffer_cons]; rfl
  · rw [sendBuffer_cons]; rfl
  · rw [sendBuffer_cons]; rfl
  · rw [sendBuffer_cons]; rfl
  · rw [sendBuffer_cons]; rfl
  · rw [sendBuffer_cons]; rfl
  · intro i hi
    rw [sendBuffer_cons]
    rw [show (8 : Nat) + i = i + 1 + 1 + 1 + 1 + 1 + 1 + 1 + 1 by omega]
    simp only [List.getD_cons_succ]
    exact List.getD_append _ _ _ _ hi
  · intro i hge hlt
    rw [sendBuffer_cons]
    rw [show (8 : Nat) + i = i + 1 + 1 + 1 + 1 + 1 + 1 + 1 + 1 by omega]
    simp only [List.getD_cons_succ]
    rw [List.getD_append_right _ _ _ _ hge]
    rw [List.getD_append _ _ _ _ (by simp; omega)]
    exact getD_replicate_zero _ _
  · rw [sendBuffer_drop_take f h]
    rw [sendBuffer_cons]
    show (f.data ++ (List.replicate (8 - f.data.length) 0 ++
      [make_checksum (sendPayload f)])).getD 8 0 = make_checksum (sendPayload f)
    rw [← List.append_assoc]
    have hlen8 : (f.data ++ List.replicate (8 - f.data.length) 0).length = 8 := by
      simp
      omega
    rw [List.getD_append_right _ _ _ _ (le_of_eq hlen8)]
    rw [hlen8]
    rfl

/-- C2 witness: concrete send of a frame writes one 17-byte buffer starting
with 0x30 whose final byte checksums the padded payload region. -/
theorem send_frame_spec_witness :
    ∃ buffer : List Nat,
      (send_frame ⟨0x123, false, true, [1, 2, 3]⟩
          ⟨0x25, [TResp.ok []], []⟩).1.trace
        = [] ++ [I2COp.write 0x25 buffer] ∧
      buffer.length = 17 ∧
      buffer.getD 0 0 = 0x30 ∧
      buffer.getD 16 0 = make_checksum ((buffer.drop 1).take 15) := by
  obtain ⟨buffer, h1, h2, h3, h4, h5, h6, h7, h8, h9, h10, h11, h12, h13⟩ :=
    send_frame_spec ⟨0x123, false, true, [1, 2, 3]⟩ ⟨0x25, [TResp.ok []], []⟩
      (by decide)
  exact ⟨buffer, h1, h2, h3, h13⟩

/-- make_checksum always returns a byte. -/
theorem make_checksum_lt (data : List Nat) : make_checksum data < 256 := by
  have h : ∀ n : Nat, n % 256 < 256 := fun n => Nat.mod_lt _ (by norm_num)
  unfold make_checksum
  exact h _

/-- Cons normal form of the inbound encoding. -/
theorem encode_inbound_cons (f : CanFrame) :
    encode_inbound f =
      f.id / 2 ^ 24 % 256 :: f.id / 2 ^ 16 % 256 :: f.id / 2 ^ 8 % 256 ::
      f.id % 256 :: f.extended_id.toNat :: f.remote_transmission_request.toNat ::
      f.data.length ::
      (f.data ++ (List.replicate (8 - f.data.length) 0 ++
        [make_checksum (sendPayload f)])) := by
  simp [encode_inbound, sendPayload, idBEBytes]

/-- Length of the inbound encoding is 16 for data of length at most 8. -/
theorem encode_inbound_length (f : CanFrame) (h : f.data.length ≤ 8) :
    (encode_inbound f).length = 16 := by
  simp [encode_inbound, idBEBytes]
  omega

/-- Every byte of the inbound encoding is below 256 when the payload bytes
are. -/
theorem encode_inbound_lt (f : CanFrame) (hlen : f.data.length ≤ 8)
    (hb : ∀ x ∈ f.data, x < 256) :
    ∀ x ∈ encode_inbound f, x < 256 := by
  have hmod : ∀ n : Nat, n % 256 < 256 := fun n => Nat.mod_lt _ (by norm_num)
  intro x hx
  rw [encode_inbound_cons] at hx
  simp only [List.mem_cons, List.mem_append, List.mem_replicate,
    List.mem_singleton] at hx
  rcases hx with h | h | h | h | h | h | h | h | ⟨_, h⟩ | h
  · exact h ▸ hmod _
  · exact h ▸ hmod _
  · exact h ▸ hmod _
  · exact h ▸ hmod _
  · subst h; cases f.extended_id <;> decide
  · subst h; cases f.remote_transmission_request <;> decide
  · omega
  · exact hb x h
  · omega
  · rcases h with h | h
    · exact h ▸ make_checksum_lt _
    · simp at h

/-- Padding to the exact length of an all-bytes list is the identity. -/
theorem padTo_eq_self (l : List Nat) (n : Nat) (hl : l.length = n)
    (hb : ∀ x ∈ l, x < 256) : padTo n l = l := by
  subst hl
  unfold padTo
  have hmap : l.map (fun x => x % 256) = l := by
    conv_rhs => rw [← List.map_id l]
    exact List.map_congr_left fun a ha => Nat.mod_eq_of_lt (hb a ha)
  rw [hmap, List.take_left]

/-- Decoding the four big-endian bytes of a u32 recovers it. -/
theorem u32_from_be_idBEBytes (id : Nat) (h : id < 2 ^ 32) :
    u32_from_be (idBEBytes id) = id := by
  have e24 : (2 : Nat) ^ 24 = 16777216 := by norm_num
  have e16 : (2 : Nat) ^ 16 = 65536 := by norm_num
  have e8 : (2 : Nat) ^ 8 = 256 := by norm_num
  have e32 : (2 : Nat) ^ 32 = 4294967296 := by norm_num
  simp only [u32_from_be, idBEBytes, List.foldl_cons, List.foldl_nil,
    e24, e16, e8]
  rw [e32] at h
  omega

/-- decide of a positivity test on Bool.toNat recovers the Bool. -/
theorem decide_toNat_pos (b : Bool) : decide (0 < b.toNat) = b := by
  cases b <;> rfl

/-- Decoding the inbound encoding of a valid frame yields the frame. -/
theorem decode_encode (f : CanFrame) (hlen : f.data.length ≤ 8)
    (hid : f.id < 2 ^ 32) :
    decode_frame (encode_inbound f) = .ok (some f) := by
  have hpl := sendPayload_length f hlen
  have henc : encode_inbound f
      = sendPayload f ++ [make_checksum (sendPayload f)] := rfl
  have h15 : (encode_inbound f).getD 15 0 = make_checksum (sendPayload f) := by
    rw [henc, List.getD_append_right _ _ _ _ (le_of_eq hpl), hpl]
    rfl
  have htake : (encode_inbound f).take 15 = sendPayload f := by
    rw [henc, ← hpl, List.take_left]
  have h6 : (encode_inbound f).getD 6 0 = f.data.length := by
    rw [encode_inbound_cons]; rfl
  have h4 : (encode_inbound f).getD 4 0 = f.extended_id.toNat := by
    rw [encode_inbound_cons]; rfl
  have h5 : (encode_inbound f).getD 5 0
      = f.remote_transmission_request.toNat := by
    rw [encode_inbound_cons]; rfl
  have h4take : (encode_inbound f).take 4 = idBEBytes f.id := by
    rw [encode_inbound_cons]; rfl
  have hdata : ((encode_inbound f).drop 7).take f.data.length = f.data := by
    rw [encode_inbound_cons]
    show ((f.data ++ (List.replicate (8 - f.data.length) 0 ++
      [make_checksum (sendPayload f)])).take f.data.length) = f.data
    exact List.take_left f.data _
  unfold decode_frame
  rw [h15, htake, h6, h4, h5, h4take]
  rw [if_neg (fun hne => hne rfl), if_neg (by omega)]
  rw [hdata, u32_from_be_idBEBytes f.id hid, decide_toNat_pos, decide_toNat_pos]

/-- C3: for every valid frame, receiving the inbound-layout encoding of the
frame (after a nonzero availability byte) through try_receive_frame's decode
path yields exactly the frame again. -/
theorem try_receive_frame_round_trip (f : CanFrame) (s : RunSt)
    (rest : List TResp) (hlen : f.data.length ≤ 8)
    (hb : ∀ x ∈ f.data, x < 256) (hid : f.id < 2 ^ 32)
    (henv : s.env = TResp.ok [] :: TResp.ok [1] :: TResp.ok [] ::
      TResp.ok (encode_inbound f) :: rest) :
    (try_receive_frame s).2 = .ok (some f) := by
  rcases s with ⟨a, env, tr⟩
  obtain rfl : env = TResp.ok [] :: TResp.ok [1] :: TResp.ok [] ::
      TResp.ok (encode_inbound f) :: rest := henv
  show decode_frame (padTo 16 (encode_inbound f)) = .ok (some f)
  rw [padTo_eq_self _ 16 (encode_inbound_length f hlen)
    (encode_inbound_lt f hlen hb)]
  exact decode_encode f hlen hid

/-- C3 witness: a concrete frame survives the encode-decode round trip. -/
theorem try_receive_frame_round_trip_witness :
    (try_receive_frame ⟨0x25, [TResp.ok [], TResp.ok [1], TResp.ok [],
      TResp.ok (encode_inbound ⟨0x123, false, true, [1, 2, 3]⟩)], []⟩).2 =
      .ok (some ⟨0x123, false, true, [1, 2, 3]⟩) :=
  try_receive_frame_round_trip ⟨0x123, false, true, [1, 2, 3]⟩
    ⟨0x25, [TResp.ok [], TResp.ok [1], TResp.ok [],
      TResp.ok (encode_inbound ⟨0x123, false, true, [1, 2, 3]⟩)], []⟩ []
    (by decide) (by decide) (by decide) rfl

/-- C4: for every 16-byte response buffer read by try_receive_frame, a
mismatch between byte 15 and the checksum of bytes 0..15 yields the
invalid-checksum error even when the length field is bad (the checksum check
comes first); with a matching checksum a decoded length above 8 yields the
distinct data-too-large error; no frame is returned in either case. -/
theorem try_receive_frame_error_spec (s : RunSt) (raw : List Nat)
    (rest : List TResp) (hraw : raw.length = 16) (hb : ∀ x ∈ raw, x < 256)
    (henv : s.env = TResp.ok [] :: TResp.ok [1] :: TResp.ok [] ::
      TResp.ok raw :: rest) :
    (raw.getD 15 0 ≠ make_checksum (raw.take 15) →
      (try_receive_frame s).2 = .error .invalidChecksum) ∧
    (raw.getD 15 0 = make_checksum (raw.take 15) → 8 < raw.getD 6 0 →
      (try_receive_frame s).2 = .error .dataTooLarge) := by
  rcases s with ⟨a, env, tr⟩
  obtain rfl : env = TResp.ok [] :: TResp.ok [1] :: TResp.ok [] ::
      TResp.ok raw :: rest := henv
  have hstep : (try_receive_frame ⟨a, TResp.ok [] :: TResp.ok [1] ::
      TResp.ok [] :: TResp.ok raw :: rest, tr⟩).2
      = decode_frame (padTo 16 raw) := rfl
  rw [hstep, padTo_eq_self raw 16 hraw hb]
  constructor
  · intro hne
    unfold decode_frame
    rw [if_pos hne]
  · intro heq hlen
    unfold decode_frame
    rw [if_neg (fun hne => hne heq), if_pos hlen]

/-- C4 witness: a buffer of sixteen 7 bytes fails the checksum comparison
and try_receive_frame reports the invalid-checksum error. -/
theorem try_receive_frame_error_spec_witness :
    (try_receive_frame ⟨0x25, [TResp.ok [], TResp.ok [1], TResp.ok [],
      TResp.ok (List.replicate 16 7)], []⟩).2 = .error .invalidChecksum :=
  (try_receive_frame_error_spec
    ⟨0x25, [TResp.ok [], TResp.ok [1], TResp.ok [],
      TResp.ok (List.replicate 16 7)], []⟩
    (List.replicate 16 7) [] (by decide) (by decide) rfl).1 (by decide)

/-- pollResults at 0 is a single invocation. -/
theorem pollResults_zero (s : RunSt) : pollResults s 0 = try_receive_frame s :=
  rfl

/-- pollResults shifts by one invocation. -/
theorem pollResults_succ (s s1 : RunSt)
    (r1 : Except DriverError (Option CanFrame))
    (h : try_receive_frame s = (s1, r1)) (k : Nat) :
    pollResults s (k + 1) = pollResults s1 k := by
  show pollResults (try_receive_frame s).1 k = pollResults s1 k
  rw [h]

/-- liftRes never produces the no-frame result. -/
theorem liftRes_ne_ok_none (r : Except DriverError CanFrame) :
    liftRes r ≠ .ok none := by
  cases r <;> simp [liftRes]

/-- C7: receive_frame fuel s terminates with result r and state s2 exactly
when some invocation k within the fuel bound is the first to produce a frame
or an error: all earlier invocations report no frame, and invocation k
produces exactly r (a frame for Ok, the same error for Err) ending in state
s2; in particular no invocation runs after the first frame or error. -/
theorem receive_frame_first_hit (fuel : Nat) (s s2 : RunSt)
    (r : Except DriverError CanFrame) :
    receive_frame fuel s = (s2, some r) ↔
      ∃ k, k < fuel ∧ (∀ j, j < k → (pollResults s j).2 = .ok none) ∧
        pollResults s k = (s2, liftRes r) := by
  induction fuel generalizing s with
  | zero =>
    constructor
    · intro h
      simp only [receive_frame] at h
      injection h with h1 h2
      exact Option.noConfusion h2
    · rintro ⟨k, hk, -, -⟩
      exact absurd hk (Nat.not_lt_zero k)
  | succ n ih =>
    simp only [receive_frame]
    rcases ht : try_receive_frame s with ⟨s1, r1⟩
    cases r1 with
    | error e =>
      constructor
      · intro h
        injection h with h1 h2
        injection h2 with h2
        refine ⟨0, Nat.succ_pos n, fun j hj => absurd hj (Nat.not_lt_zero j), ?_⟩
        rw [pollResults_zero, ht, h1, ← h2]
        rfl
      · rintro ⟨k, hk, hall, hpoll⟩
        cases k with
        | zero =>
          rw [pollResults_zero, ht] at hpoll
          injection hpoll with h1 h2
          cases r with
          | error e' =>
            simp only [liftRes] at h2
            injection h2 with h2
            rw [h1, h2]
          | ok f =>
            simp only [liftRes] at h2
            exact Except.noConfusion h2
        | succ k' =>
          have h0 := hall 0 (Nat.succ_pos k')
          rw [pollResults_zero, ht] at h0
          exact Except.noConfusion h0
    | ok o =>
      cases o with
      | some f =>
        constructor
        · intro h
          injection h with h1 h2
          injection h2 with h2
          refine ⟨0, Nat.succ_pos n, fun j hj => absurd hj (Nat.not_lt_zero j), ?_⟩
          rw [pollResults_zero, ht, h1, ← h2]
          rfl
        · rintro ⟨k, hk, hall, hpoll⟩
          cases k with
          | zero =>
            rw [pollResults_zero, ht] at hpoll
            injection hpoll with h1 h2
            cases r with
            | error e' =>
              simp only [liftRes] at h2
              exact Except.noConfusion h2
            | ok f' =>
              simp only [liftRes] at h2
              injection h2 with h2
              injection h2 with h2
              rw [h1, h2]
          | succ k' =>
            have h0 := hall 0 (Nat.succ_pos k')
            rw [pollResults_zero, ht] at h0
            injection h0 with h0
            exact Option.noConfusion h0
      | none =>
        rw [ih s1]
        constructor
        · rintro ⟨k, hk, hall, hpoll⟩
          refine ⟨k + 1, Nat.succ_lt_succ hk, ?_, ?_⟩
          · intro j hj
            cases j with
            | zero =>
              rw [pollResults_zero, ht]
            | succ j' =>
              rw [pollResults_succ s s1 _ ht j']
              exact hall j' (Nat.lt_of_succ_lt_succ hj)
          · rw [pollResults_succ s s1 _ ht k]
            exact hpoll
        · rintro ⟨k, hk, hall, hpoll⟩
          cases k with
          | zero =>
            rw [pollResults_zero, ht] at hpoll
            injection hpoll with h1 h2
            exact absurd h2.symm (liftRes_ne_ok_none r)
          | succ k' =>
            refine ⟨k', Nat.lt_of_succ_lt_succ hk, ?_, ?_⟩
            · intro j hj
              have hj1 := hall (j + 1) (Nat.succ_lt_succ hj)
              rwa [pollResults_succ s s1 _ ht j] at hj1
            · rwa [pollResults_succ s s1 _ ht k'] at hpoll
